import Mathlib

/-!
Verification of the real-time distribution and strategy-execution core of the
`python_backend` trading service (files `main.py`, `config.py`).

Python floats are modelled as rationals (`ℚ`), Python dicts with possibly
missing or ill-typed entries as structures over `Option`-wrapped tagged values,
and Python code that can raise as functions into `Except String`.
-/

namespace PythonBackend

/-- A Python value that may appear in an account-info dictionary: either a
number (float) or a string.  Arithmetic on a string raises `TypeError`. -/
inductive PyVal where
  | num : ℚ → PyVal
  | str : String → PyVal
  deriving DecidableEq, Repr

/-- The `account_info` dictionary consumed by `RiskManager.validate_trade`
(`main.py` 476-485).  `none` models a missing key; the code reads both keys
with `dict.get(key, 0)`. -/
structure AccountInfo where
  available_margin : Option PyVal
  balance : Option PyVal
  deriving DecidableEq, Repr

/-- Python multiplication of a dictionary value by a float: a `TypeError` is
raised when the value is a string. -/
def pyMulNum : PyVal → ℚ → Except String ℚ
  | .num a, b => .ok (a * b)
  | .str _, _ => .error "TypeError: cant multiply str by float"

/-- The body of `RiskManager.validate_trade` (`main.py` 478-482) before the
enclosing `try/except`: reads `available_margin` and `balance` with default 0,
computes `risk_amount = balance * (max_risk_percent / 100)` and returns
`trade_amount <= min(available_balance, risk_amount)`.  Raises (returns
`.error`) exactly where the Python body would raise a `TypeError`. -/
def validate_trade_body (account_info : AccountInfo) (trade_amount : ℚ)
    (max_risk_percent : ℚ) : Except String Bool :=
  let available_balance := account_info.available_margin.getD (.num 0)
  match pyMulNum (account_info.balance.getD (.num 0)) (max_risk_percent / 100) with
  | .error e => .error e
  | .ok risk_amount =>
    match available_balance with
    | .num a => .ok (decide (trade_amount ≤ min a risk_amount))
    | .str _ => .error "TypeError: cant compare str and float"

/-- `RiskManager.validate_trade` (`main.py` 476-485): the body wrapped in
`try/except`, any exception yielding `False`. -/
def validate_trade (account_info : AccountInfo) (trade_amount : ℚ)
    (max_risk_percent : ℚ) : Bool :=
  match validate_trade_body account_info trade_amount max_risk_percent with
  | .ok b => b
  | .error _ => false

/-- An account-info dictionary whose two keys are present and numeric. -/
def numAccount (balance available_margin : ℚ) : AccountInfo :=
  { available_margin := some (.num available_margin), balance := some (.num balance) }

/-- `Settings.POSITION_SIZE_LIMIT` (`config.py` 76), default 100000. -/
def POSITION_SIZE_LIMIT : ℚ := 100000

/-- A verdict as described by the specification of RiskGate.validate. -/
inductive RiskVerdict where
  | approved : RiskVerdict
  | rejected : String → RiskVerdict
  deriving DecidableEq, Repr

/-- Modelled from the spec (for refinement comparison only, not from the
source): the three-check, short-circuiting validation the specification
ascribes to RiskGate — (a) position size within the configured maximum,
(b) notional within a risk-percentage of balance, (c) notional within
available margin — each failure rejecting with that check's reason. -/
def validate_spec (maxPositionSize maxRiskPercent : ℚ) (quantity notional : ℚ)
    (balance availableMargin : ℚ) : RiskVerdict :=
  if maxPositionSize < quantity then .rejected "position size exceeds max position size"
  else if balance * (maxRiskPercent / 100) < notional then .rejected "notional exceeds risk cap"
  else if availableMargin < notional then .rejected "notional exceeds available margin"
  else .approved

/-- C2: the risk gate rejects any trade whose notional exceeds the available
margin regardless of the other limits, approves any trade within all the
configured limits (the position-size bound is not even consulted by the code,
so approval holds as soon as the two notional bounds hold), and in the
concrete scenario — balance 100000, max risk 5%, notional 6000 — the trade is
rejected since 6000 exceeds the 5000 risk cap. -/
theorem validate_trade_margin_and_limits :
    (∀ balance avail amt pct : ℚ,
      (avail < amt → validate_trade (numAccount balance avail) amt pct = false) ∧
      (∀ qty : ℚ, qty ≤ POSITION_SIZE_LIMIT → amt ≤ balance * (pct / 100) → amt ≤ avail →
        validate_trade (numAccount balance avail) amt pct = true)) ∧
    validate_trade (numAccount 100000 80000) 6000 5 = false := by
  constructor
  · intro balance avail amt pct
    constructor
    · intro h
      simp only [validate_trade, validate_trade_body, numAccount, pyMulNum, Option.getD]
      simp only [decide_eq_false_iff_not, not_le]
      exact lt_of_le_of_lt (min_le_left _ _) h
    · intro qty _ h1 h2
      simp only [validate_trade, validate_trade_body, numAccount, pyMulNum, Option.getD]
      simp only [decide_eq_true_eq]
      exact le_min h2 h1
  · simp only [validate_trade, validate_trade_body, numAccount, pyMulNum, Option.getD]
    simp only [decide_eq_false_iff_not, not_le, min_lt_iff]
    norm_num

/-- Witness for `validate_trade_margin_and_limits` at concrete inputs. -/
theorem validate_trade_margin_and_limits_witness :
    validate_trade (numAccount 100000 80000) 90000 5 = false ∧
    validate_trade (numAccount 100000 80000) 3000 5 = true := by
  refine ⟨(validate_trade_margin_and_limits.1 100000 80000 90000 5).1 (by norm_num),
    (validate_trade_margin_and_limits.1 100000 80000 3000 5).2 1
      (by unfold POSITION_SIZE_LIMIT ; norm_num) (by norm_num) (by norm_num)⟩

/-- C3 counterexample: the code performs no position-size check.  A trade of
200000 units at price 1/100 (notional 2000) exceeds the configured
`POSITION_SIZE_LIMIT` of 100000, so the specified three-check validation
rejects it at check (a); the code's `validate_trade` — which only compares the
notional against `min(available_margin, risk_amount)` and returns a bare
boolean with no reason — approves it. -/
theorem validate_trade_skips_position_check :
    validate_spec POSITION_SIZE_LIMIT 5 200000 2000 100000 80000 =
      .rejected "position size exceeds max position size" ∧
    POSITION_SIZE_LIMIT < 200000 ∧
    validate_trade (numAccount 100000 80000) 2000 5 = true := by
  refine ⟨by decide, by unfold POSITION_SIZE_LIMIT ; norm_num, ?_⟩
  simp only [validate_trade, validate_trade_body, numAccount, pyMulNum, Option.getD]
  simp only [decide_eq_true_eq, le_min_iff]
  norm_num

/-- C3 amended: the validation performs a single combined comparison —
approve iff the notional is at most the risk-percentage of the balance and at
most the available margin — equivalent to checks (b) and (c) of the claim;
check (a) (position size) is absent and no rejection reason is produced. -/
theorem validate_trade_min_check_decomp :
    ∀ balance avail amt pct : ℚ,
      validate_trade (numAccount balance avail) amt pct = true ↔
        (amt ≤ balance * (pct / 100) ∧ amt ≤ avail) := by
  intro balance avail amt pct
  simp only [validate_trade, validate_trade_body, numAccount, pyMulNum, Option.getD]
  simp only [decide_eq_true_eq, le_min_iff]
  exact and_comm

/-- Witness for `validate_trade_min_check_decomp` at a concrete input. -/
theorem validate_trade_min_check_decomp_witness :
    validate_trade (numAccount 100000 80000) 4000 5 = true ↔
      ((4000 : ℚ) ≤ 100000 * (5 / 100) ∧ (4000 : ℚ) ≤ 80000) :=
  validate_trade_min_check_decomp 100000 80000 4000 5

/-- C10: the risk gate fails closed.  Missing `available_margin` or `balance`
keys are read as 0, so any positive trade amount is rejected; and any
exception raised by the body (modelled by `validate_trade_body` returning
`.error`) is caught and yields `false`.  `validate_trade` is a total boolean
function, so validation itself never raises. -/
theorem validate_trade_fails_closed :
    (∀ (acct : AccountInfo) (amt pct : ℚ),
      (acct.available_margin = none ∨ acct.balance = none) → 0 < amt →
        validate_trade acct amt pct = false) ∧
    (∀ (acct : AccountInfo) (amt pct : ℚ) (e : String),
      validate_trade_body acct amt pct = .error e → validate_trade acct amt pct = false) := by
  constructor
  · intro acct amt pct hmiss hpos
    rcases acct with ⟨avail, bal⟩
    rcases hmiss with h | h
    · subst h
      rcases bal with _ | v
      · simp only [validate_trade, validate_trade_body, pyMulNum, Option.getD]
        simp only [decide_eq_false_iff_not, not_le, zero_mul]
        simpa using hpos
      · rcases v with b | s
        · simp only [validate_trade, validate_trade_body, pyMulNum, Option.getD]
          simp only [decide_eq_false_iff_not, not_le]
          exact lt_of_le_of_lt (min_le_left _ _) hpos
        · simp [validate_trade, validate_trade_body, pyMulNum, Option.getD]
    · subst h
      rcases avail with _ | v
      · simp only [validate_trade, validate_trade_body, pyMulNum, Option.getD]
        simp only [decide_eq_false_iff_not, not_le, zero_mul]
        simpa using hpos
      · rcases v with a | s
        · simp only [validate_trade, validate_trade_body, pyMulNum, Option.getD]
          simp only [decide_eq_false_iff_not, not_le, zero_mul]
          exact lt_of_le_of_lt (min_le_right _ _) hpos
        · simp [validate_trade, validate_trade_body, pyMulNum, Option.getD]
  · intro acct amt pct e herr
    simp [validate_trade, herr]

/-- Witness for `validate_trade_fails_closed`: an account dictionary with both
keys missing rejects a positive trade, and an account whose margin entry is a
string (so the body raises a `TypeError`) also yields `false`. -/
theorem validate_trade_fails_closed_witness :
    validate_trade { available_margin := none, balance := none } 5 5 = false ∧
    validate_trade { available_margin := some (.str "oops"), balance := some (.num 100) }
      10 5 = false := by
  refine ⟨validate_trade_fails_closed.1 _ 5 5 (Or.inl rfl) (by norm_num),
    validate_trade_fails_closed.2 _ 10 5 "TypeError: cant compare str and float" (by rfl)⟩

/-- Terminal and intermediate states of a trading signal. -/
inductive SignalState where
  | produced | validated | approved | rejected | submitted | discarded
  deriving DecidableEq, Repr

/-- Observable calls made while processing one signal: a risk-gate validation
(with its verdict) or an order placement through `FyersAPI.place_order`. -/
inductive TradeEvent where
  | validateCall : Bool → TradeEvent
  | placeOrderCall : String → String → ℚ → TradeEvent
  deriving DecidableEq, Repr

/-- The signal dictionary a strategy returns (`main.py` 544, 552-571): the
caller guarantees the `signal` key (the side) is `BUY` or `SELL`; `symbol` and
`quantity` are read with direct indexing (missing key raises `KeyError`),
`quantity` and `price` are read with `dict.get` defaults 1 and 0 when
computing the notional. -/
structure SignalDict where
  symbol : Option String
  side : String
  quantity : Option ℚ
  price : Option ℚ
  deriving DecidableEq, Repr

/-- `RealTimeDataTask._process_strategy_signal` (`main.py` 552-578): computes
the notional from the signal, calls `RiskManager.validate_trade` once (default
max risk 5%), returns without placing an order when rejected, and otherwise
places exactly one order through `FyersAPI.place_order`; a `KeyError` while
building the order call (missing `symbol` or `quantity` key) is caught by the
enclosing `try/except`, so the signal dies without submission.  Returns the
list of observable calls in order and the signal's final state. -/
def process_strategy_signal (acct : AccountInfo) (sig : SignalDict) :
    List TradeEvent × SignalState :=
  if validate_trade acct (sig.quantity.getD 1 * sig.price.getD 0) 5 then
    match sig.symbol, sig.quantity with
    | some sym, some qty =>
        ([TradeEvent.validateCall true, TradeEvent.placeOrderCall sym sig.side qty],
          SignalState.submitted)
    | some _, none => ([TradeEvent.validateCall true], SignalState.discarded)
    | none, _ => ([TradeEvent.validateCall true], SignalState.discarded)
  else ([TradeEvent.validateCall false], SignalState.discarded)

/-- Number of order placements in a trace. -/
def countOrders (evs : List TradeEvent) : ℕ :=
  evs.countP fun e => match e with
    | .placeOrderCall _ _ _ => true
    | _ => false

/-- Number of risk-gate calls in a trace. -/
def countValidates (evs : List TradeEvent) : ℕ :=
  evs.countP fun e => match e with
    | .validateCall _ => true
    | _ => false

/-- Number of successful risk-gate approvals in a trace. -/
def countApprovals (evs : List TradeEvent) : ℕ :=
  evs.countP fun e => match e with
    | .validateCall b => b
    | _ => false

/-- C1: processing a strategy signal always ends in a terminal state
(`submitted` or `discarded`, never revisited); at most one order is placed,
and when an order is placed the trace is exactly one successful risk-gate
approval followed by the order, so the order comes after exactly one approval;
a signal with no approval (i.e. a rejected signal) is discarded and no order
is ever placed for it. -/
theorem process_strategy_signal_state_machine :
    ∀ (acct : AccountInfo) (sig : SignalDict),
      ((process_strategy_signal acct sig).2 = SignalState.submitted ∨
        (process_strategy_signal acct sig).2 = SignalState.discarded) ∧
      countOrders (process_strategy_signal acct sig).1 ≤ 1 ∧
      (countOrders (process_strategy_signal acct sig).1 = 1 →
        countValidates (process_strategy_signal acct sig).1 = 1 ∧
        countApprovals (process_strategy_signal acct sig).1 = 1 ∧
        (∃ sym qty, (process_strategy_signal acct sig).1 =
          [TradeEvent.validateCall true, TradeEvent.placeOrderCall sym sig.side qty]) ∧
        (process_strategy_signal acct sig).2 = SignalState.submitted) ∧
      (countApprovals (process_strategy_signal acct sig).1 = 0 →
        countOrders (process_strategy_signal acct sig).1 = 0 ∧
        (process_strategy_signal acct sig).2 = SignalState.discarded) := by
  intro acct sig
  obtain ⟨osym, side, oqty, oprice⟩ := sig
  unfold process_strategy_signal
  split
  · rcases osym with _ | sym
    · rcases oqty with _ | qty <;> simp [countOrders, countValidates, countApprovals]
    · rcases oqty with _ | qty
      · simp [countOrders, countValidates, countApprovals]
      · refine ⟨Or.inl rfl, by simp [countOrders],
          fun _ => ⟨by simp [countValidates], by simp [countApprovals],
            ⟨sym, qty, rfl⟩, rfl⟩, fun hz => ?_⟩
        simp [countApprovals] at hz
  · simp [countOrders, countValidates, countApprovals]

/-- Witness for `process_strategy_signal_state_machine` at a concrete signal. -/
theorem process_strategy_signal_state_machine_witness :
    ((process_strategy_signal (numAccount 100000 80000)
        { symbol := some "NSE:NIFTY", side := "BUY", quantity := some 10,
          price := some 100 }).2 = SignalState.submitted ∨
      (process_strategy_signal (numAccount 100000 80000)
        { symbol := some "NSE:NIFTY", side := "BUY", quantity := some 10,
          price := some 100 }).2 = SignalState.discarded) ∧
    countOrders (process_strategy_signal (numAccount 100000 80000)
        { symbol := some "NSE:NIFTY", side := "BUY", quantity := some 10,
          price := some 100 }).1 ≤ 1 ∧
    (countOrders (process_strategy_signal (numAccount 100000 80000)
        { symbol := some "NSE:NIFTY", side := "BUY", quantity := some 10,
          price := some 100 }).1 = 1 →
      countValidates (process_strategy_signal (numAccount 100000 80000)
        { symbol := some "NSE:NIFTY", side := "BUY", quantity := some 10,
          price := some 100 }).1 = 1 ∧
      countApprovals (process_strategy_signal (numAccount 100000 80000)
        { symbol := some "NSE:NIFTY", side := "BUY", quantity := some 10,
          price := some 100 }).1 = 1 ∧
      (∃ sym qty, (process_strategy_signal (numAccount 100000 80000)
        { symbol := some "NSE:NIFTY", side := "BUY", quantity := some 10,
          price := some 100 }).1 =
          [TradeEvent.validateCall true, TradeEvent.placeOrderCall sym "BUY" qty]) ∧
      (process_strategy_signal (numAccount 100000 80000)
        { symbol := some "NSE:NIFTY", side := "BUY", quantity := some 10,
          price := some 100 }).2 = SignalState.submitted) ∧
    (countApprovals (process_strategy_signal (numAccount 100000 80000)
        { symbol := some "NSE:NIFTY", side := "BUY", quantity := some 10,
          price := some 100 }).1 = 0 →
      countOrders (process_strategy_signal (numAccount 100000 80000)
        { symbol := some "NSE:NIFTY", side := "BUY", quantity := some 10,
          price := some 100 }).1 = 0 ∧
      (process_strategy_signal (numAccount 100000 80000)
        { symbol := some "NSE:NIFTY", side := "BUY", quantity := some 10,
          price := some 100 }).2 = SignalState.discarded) :=
  process_strategy_signal_state_machine (numAccount 100000 80000)
    { symbol := some "NSE:NIFTY", side := "BUY", quantity := some 10, price := some 100 }

/-- A row of the `strategies` table as read by the scheduler
(`main.py` 534): id, symbol, status, and the optional `code` column. -/
structure Strategy where
  id : String
  symbol : String
  status : String
  code : Option String
  deriving DecidableEq, Repr

/-- Outcome of running one strategy module's `execute` function
(`main.py` 448): it returns a dict carrying an actionable signal, returns a
dict without one, returns a non-dict value (malformed output), or raises. -/
inductive ExecOutcome where
  | signalOut : SignalDict → ExecOutcome
  | noSignal : ExecOutcome
  | nonDict : ExecOutcome
  | raises : String → ExecOutcome
  deriving Repr

/-- The value returned by `StrategyEngine.execute_strategy`: an error dict
when the execution raised, a dict with or without an actionable signal, or —
since the user module's return value is passed through unvalidated — any
non-dict value. -/
inductive StrategyResult where
  | errorDict : String → StrategyResult
  | signalDict : SignalDict → StrategyResult
  | plainDict : StrategyResult
  | nonDict : StrategyResult
  deriving Repr

/-- `StrategyEngine.execute_strategy` (`main.py` 434-455): every exception
raised while loading or running the strategy is caught and turned into an
`error` dict, so the call itself never raises; but the strategy's return
value, dict or not, is handed back as is. -/
def execute_strategy (behavior : String → ExecOutcome) (strategy_id : String) :
    StrategyResult :=
  match behavior strategy_id with
  | .raises e => .errorDict e
  | .signalOut s => .signalDict s
  | .noSignal => .plainDict
  | .nonDict => .nonDict

/-- The signal check of the scheduler loop (`main.py` 544,
`result.get('signal') == 'BUY' or result.get('signal') == 'SELL'`): on a dict
it yields the actionable signal, if any; on a non-dict result the `.get`
attribute access raises an `AttributeError`. -/
def signalOf : StrategyResult → Except String (Option SignalDict)
  | .nonDict => .error "AttributeError: object has no attribute get"
  | .signalDict s => .ok (if s.side = "BUY" ∨ s.side = "SELL" then some s else none)
  | .errorDict _ => .ok none
  | .plainDict => .ok none

/-- Python truthiness of the `code` column (`main.py` 539, `if strategy_code:`):
`None` and the empty string are falsy. -/
def truthyCode : Option String → Bool
  | none => false
  | some c => !(c.isEmpty)

/-- The strategies actually run in a tick: status `active` (the SQL filter at
`main.py` 534) with truthy code. -/
def runnableStrategies (reg : List Strategy) : List Strategy :=
  (reg.filter fun s => decide (s.status = "active")).filter fun s => truthyCode s.code

/-- The tick loop over the runnable strategies (`main.py` 538-545): each
strategy is executed and its `BUY`/`SELL` signal, if any, processed; an
`AttributeError` from the signal check on a non-dict result escapes to the
outer `except` of `_execute_active_strategies` (`main.py` 548), so the loop
stops there and the remaining strategies of the tick are not executed.
Returns the executed ids in order, the trade events, and whether the tick was
aborted by such an escape. -/
def scheduler_tick_loop (behavior : String → ExecOutcome) (acct : AccountInfo) :
    List Strategy → List String × List TradeEvent × Bool
  | [] => ([], [], false)
  | s :: rest =>
    match signalOf (execute_strategy behavior s.id) with
    | .error _ => ([s.id], [], true)
    | .ok none =>
      let r := scheduler_tick_loop behavior acct rest
      (s.id :: r.1, r.2.1, r.2.2)
    | .ok (some sig) =>
      let r := scheduler_tick_loop behavior acct rest
      (s.id :: r.1, (process_strategy_signal acct sig).1 ++ r.2.1, r.2.2)

/-- Result of one scheduler pass: the registry as left behind, the ids of the
strategies actually executed, the trade events produced, and whether the tick
was cut short by an escaping exception. -/
structure TickResult where
  registry : List Strategy
  executedIds : List String
  events : List TradeEvent
  abortedTick : Bool
  deriving DecidableEq, Repr

/-- One pass of `RealTimeDataTask._execute_active_strategies` (`main.py`
528-550): loads the active strategies, runs the tick loop over those with
truthy code.  The pass contains no write to the registry: no status is ever
updated, whatever happens. -/
def scheduler_tick (reg : List Strategy) (behavior : String → ExecOutcome)
    (acct : AccountInfo) : TickResult :=
  { registry := reg,
    executedIds := (scheduler_tick_loop behavior acct (runnableStrategies reg)).1,
    events := (scheduler_tick_loop behavior acct (runnableStrategies reg)).2.1,
    abortedTick := (scheduler_tick_loop behavior acct (runnableStrategies reg)).2.2 }

/-- The registry after `n` scheduler ticks. -/
def scheduler_run (behavior : String → ExecOutcome) (acct : AccountInfo) :
    ℕ → List Strategy → List Strategy
  | 0, reg => reg
  | n + 1, reg => scheduler_run behavior acct n (scheduler_tick reg behavior acct).registry

/-- A strategy whose execution raises on every tick. -/
def alwaysFailing : String → ExecOutcome := fun _ => .raises "boom"

/-- A one-strategy registry with an active custom strategy. -/
def cexRegistry : List Strategy :=
  [{ id := "s1", symbol := "NSE:NIFTY", status := "active", code := some "def execute..." }]

/-- A behavior where strategy `bad` returns a non-dict value (malformed
output) and every other strategy returns a well-formed BUY signal. -/
def mixedBehavior : String → ExecOutcome := fun idStr =>
  if idStr = "bad" then .nonDict
  else .signalOut { symbol := some "NSE:NIFTY", side := "BUY", quantity := some 1,
                    price := some 1 }

/-- A registry with a malformed-output strategy scheduled before a healthy
one. -/
def mixedRegistry : List Strategy :=
  [{ id := "bad", symbol := "NSE:NIFTY", status := "active", code := some "def execute..." },
   { id := "good", symbol := "NSE:BANKNIFTY", status := "active",
     code := some "def execute..." }]

/-- C4 counterexample, both halves of the claim at concrete inputs: (i) a
strategy that raises on every execution is still `active` after 3 consecutive
failing ticks (the threshold of the spec's scenario) and the 4th tick still
executes it — no failure count is kept, no status is ever flipped to `error`,
no strategy is ever excluded; (ii) a strategy returning malformed (non-dict)
output is not contained per strategy: the `AttributeError` from the signal
check aborts the tick, so the healthy strategy scheduled after it is not
executed in that tick. -/
theorem scheduler_never_flips_error_cex :
    scheduler_run alwaysFailing (numAccount 100000 80000) 3 cexRegistry = cexRegistry ∧
    (scheduler_run alwaysFailing (numAccount 100000 80000) 3 cexRegistry).map
      (fun s => s.status) = ["active"] ∧
    (scheduler_tick (scheduler_run alwaysFailing (numAccount 100000 80000) 3 cexRegistry)
      alwaysFailing (numAccount 100000 80000)).executedIds = ["s1"] ∧
    (scheduler_tick mixedRegistry mixedBehavior (numAccount 100000 80000)).executedIds =
      ["bad"] ∧
    (scheduler_tick mixedRegistry mixedBehavior (numAccount 100000 80000)).abortedTick =
      true := by
  refine ⟨rfl, rfl, rfl, rfl, rfl⟩

/-- C4 amended: an exception raised inside a strategy's execution is caught
per strategy (it becomes an error dict), so when no strategy returns non-dict
output every runnable strategy of the tick is executed and raising strategies
produce no trade events; but a strategy returning malformed (non-dict) output
makes the signal check raise, which is caught only by the outer handler and
aborts the remaining strategies of that tick; and in every case the registry
is never written: no failure count exists, no status is ever flipped to
`error`, and a perpetually failing strategy is scheduled again on every
subsequent tick. -/
theorem scheduler_tick_isolation :
    ∀ (reg : List Strategy) (behavior : String → ExecOutcome) (acct : AccountInfo),
      (scheduler_tick reg behavior acct).registry = reg ∧
      (∀ n, scheduler_run behavior acct n reg = reg) ∧
      ((∀ s ∈ runnableStrategies reg, behavior s.id ≠ ExecOutcome.nonDict) →
        (scheduler_tick reg behavior acct).executedIds =
          (runnableStrategies reg).map (fun s => s.id) ∧
        (scheduler_tick reg behavior acct).abortedTick = false) ∧
      ((∃ s ∈ runnableStrategies reg, behavior s.id = ExecOutcome.nonDict) →
        (scheduler_tick reg behavior acct).abortedTick = true) ∧
      ((∀ idStr, ∃ e, behavior idStr = .raises e) →
        (scheduler_tick reg behavior acct).events = [] ∧
        (scheduler_tick reg behavior acct).executedIds =
          (runnableStrategies reg).map (fun s => s.id)) := by
  intro reg behavior acct
  have loopNoBad : ∀ l : List Strategy, (∀ s ∈ l, behavior s.id ≠ ExecOutcome.nonDict) →
      (scheduler_tick_loop behavior acct l).1 = l.map (fun s => s.id) ∧
      (scheduler_tick_loop behavior acct l).2.2 = false := by
    intro l
    induction l with
    | nil => intro _ ; exact ⟨rfl, rfl⟩
    | cons s rest ih =>
      intro h
      have hrest := fun t ht => h t (List.mem_cons_of_mem s ht)
      have ihr := ih hrest
      rcases hcase : behavior s.id with sig | _ | _ | e
      · by_cases hP : sig.side = "BUY" ∨ sig.side = "SELL"
        · simp [scheduler_tick_loop, execute_strategy, signalOf, hcase, hP, ihr.1, ihr.2]
        · simp [scheduler_tick_loop, execute_strategy, signalOf, hcase, hP, ihr.1, ihr.2]
      · simp [scheduler_tick_loop, execute_strategy, signalOf, hcase, ihr.1, ihr.2]
      · exact absurd hcase (h s (List.mem_cons_self s rest))
      · simp [scheduler_tick_loop, execute_strategy, signalOf, hcase, ihr.1, ihr.2]
  have loopBad : ∀ l : List Strategy, (∃ s ∈ l, behavior s.id = ExecOutcome.nonDict) →
      (scheduler_tick_loop behavior acct l).2.2 = true := by
    intro l
    induction l with
    | nil => intro h ; simp at h
    | cons s rest ih =>
      intro h
      rcases hcase : behavior s.id with sig | _ | _ | e
      · have hr : ∃ t ∈ rest, behavior t.id = ExecOutcome.nonDict := by
          rcases h with ⟨t, ht, htb⟩
          rcases List.mem_cons.mp ht with rfl | htr
          · rw [hcase] at htb ; exact absurd htb (by simp)
          · exact ⟨t, htr, htb⟩
        by_cases hP : sig.side = "BUY" ∨ sig.side = "SELL"
        · simp [scheduler_tick_loop, execute_strategy, signalOf, hcase, hP, ih hr]
        · simp [scheduler_tick_loop, execute_strategy, signalOf, hcase, hP, ih hr]
      · have hr : ∃ t ∈ rest, behavior t.id = ExecOutcome.nonDict := by
          rcases h with ⟨t, ht, htb⟩
          rcases List.mem_cons.mp ht with rfl | htr
          · rw [hcase] at htb ; exact absurd htb (by simp)
          · exact ⟨t, htr, htb⟩
        simp [scheduler_tick_loop, execute_strategy, signalOf, hcase, ih hr]
      · simp [scheduler_tick_loop, execute_strategy, signalOf, hcase]
      · have hr : ∃ t ∈ rest, behavior t.id = ExecOutcome.nonDict := by
          rcases h with ⟨t, ht, htb⟩
          rcases List.mem_cons.mp ht with rfl | htr
          · rw [hcase] at htb ; exact absurd htb (by simp)
          · exact ⟨t, htr, htb⟩
        simp [scheduler_tick_loop, execute_strategy, signalOf, hcase, ih hr]
  have loopRaise : ∀ l : List Strategy, (∀ idStr, ∃ e, behavior idStr = .raises e) →
      (scheduler_tick_loop behavior acct l).2.1 = [] ∧
      (scheduler_tick_loop behavior acct l).1 = l.map (fun s => s.id) := by
    intro l
    induction l with
    | nil => intro _ ; exact ⟨rfl, rfl⟩
    | cons s rest ih =>
      intro h
      obtain ⟨e, he⟩ := h s.id
      have ihr := ih h
      simp [scheduler_tick_loop, execute_strategy, signalOf, he, ihr.1, ihr.2]
  refine ⟨rfl, ?_, ?_, ?_, ?_⟩
  · intro n
    induction n generalizing reg with
    | zero => rfl
    | succ k ih => exact ih reg
  · intro h
    exact loopNoBad (runnableStrategies reg) h
  · intro h
    exact loopBad (runnableStrategies reg) h
  · intro h
    exact ⟨(loopRaise (runnableStrategies reg) h).1, (loopRaise (runnableStrategies reg) h).2⟩

/-- Witness for `scheduler_tick_isolation` at a concrete registry and
behavior. -/
theorem scheduler_tick_isolation_witness :
    (scheduler_tick cexRegistry alwaysFailing (numAccount 100000 80000)).registry =
      cexRegistry ∧
    (∀ n, scheduler_run alwaysFailing (numAccount 100000 80000) n cexRegistry = cexRegistry) ∧
    ((∀ s ∈ runnableStrategies cexRegistry,
        alwaysFailing s.id ≠ ExecOutcome.nonDict) →
      (scheduler_tick cexRegistry alwaysFailing (numAccount 100000 80000)).executedIds =
        (runnableStrategies cexRegistry).map (fun s => s.id) ∧
      (scheduler_tick cexRegistry alwaysFailing (numAccount 100000 80000)).abortedTick =
        false) ∧
    ((∃ s ∈ runnableStrategies cexRegistry,
        alwaysFailing s.id = ExecOutcome.nonDict) →
      (scheduler_tick cexRegistry alwaysFailing (numAccount 100000 80000)).abortedTick =
        true) ∧
    ((∀ idStr, ∃ e, alwaysFailing idStr = .raises e) →
      (scheduler_tick cexRegistry alwaysFailing (numAccount 100000 80000)).events = [] ∧
      (scheduler_tick cexRegistry alwaysFailing (numAccount 100000 80000)).executedIds =
        (runnableStrategies cexRegistry).map (fun s => s.id)) :=
  scheduler_tick_isolation cexRegistry alwaysFailing (numAccount 100000 80000)

/-- Shared state of `ConnectionManager` and `RealTimeDataTask` (`main.py`
126-171, 492-586): the list of live connections, the per-symbol subscriber
lists (`manager.subscriptions`), and the set of symbols polled for market data
(`real_time_task.subscribed_symbols`, modelled as a duplicate-free list). -/
structure SysState where
  active : List ℕ
  subs : List (String × List ℕ)
  hot : List String
  deriving DecidableEq, Repr

/-- Dictionary lookup in `manager.subscriptions`. -/
def lookupSubs (subs : List (String × List ℕ)) (s : String) : Option (List ℕ) :=
  (subs.find? fun p => decide (p.1 = s)).map fun p => p.2

/-- Replace the subscriber list stored under a symbol. -/
def updateSubs (subs : List (String × List ℕ)) (s : String) (l : List ℕ) :
    List (String × List ℕ) :=
  subs.map fun p => if p.1 = s then (s, l) else p

/-- `ConnectionManager.subscribe_to_symbol` (`main.py` 164-169): create the
symbol's list if absent, append the connection if not already present. -/
def subscribe_to_symbol (st : SysState) (c : ℕ) (s : String) : SysState :=
  match lookupSubs st.subs s with
  | none => { st with subs := st.subs ++ [(s, [c])] }
  | some l =>
    if c ∈ l then st
    else { st with subs := updateSubs st.subs s (l ++ [c]) }

/-- Python `set.add` on `subscribed_symbols`
(`RealTimeDataTask.subscribe_symbol`, `main.py` 580-582). -/
def hotAdd (hot : List String) (s : String) : List String :=
  if s ∈ hot then hot else hot ++ [s]

/-- Python `set.discard` on `subscribed_symbols`
(`RealTimeDataTask.unsubscribe_symbol`, `main.py` 584-586). -/
def hotDiscard (hot : List String) (s : String) : List String :=
  hot.filter fun x => decide (x ≠ s)

/-- Operations on the shared state, as triggered by the WebSocket endpoint
(`main.py` 624-648): a client connecting, a `subscribe` message (which updates
both the hub's subscriber list and the polled set), an `unsubscribe` message
(which updates only the polled set — `ConnectionManager` has no unsubscribe),
and a disconnect (which removes the connection from the hub but leaves the
polled set untouched). -/
inductive Op where
  | connect : ℕ → Op
  | subscribe : ℕ → String → Op
  | unsubscribe : ℕ → String → Op
  | disconnect : ℕ → Op
  deriving DecidableEq, Repr

/-- Effect of one operation on the shared state, transcribed from
`ConnectionManager.connect/disconnect/subscribe_to_symbol` and
`RealTimeDataTask.subscribe_symbol/unsubscribe_symbol` as invoked by
`websocket_endpoint`. -/
def applyOp (st : SysState) : Op → SysState
  | .connect c => { st with active := st.active ++ [c] }
  | .subscribe c s =>
    let st1 := subscribe_to_symbol st c s
    { st1 with hot := hotAdd st1.hot s }
  | .unsubscribe _ s => { st with hot := hotDiscard st.hot s }
  | .disconnect c =>
    { st with active := st.active.erase c,
              subs := st.subs.map fun p => (p.1, p.2.erase c) }

/-- Run a sequence of operations. -/
def runOps (st : SysState) : List Op → SysState
  | [] => st
  | op :: rest => runOps (applyOp st op) rest

/-- The state at process start: no connections, no subscriptions, empty
polled set. -/
def initState : SysState := { active := [], subs := [], hot := [] }

/-- `ConnectionManager.broadcast` (`main.py` 151-162) with a symbol argument:
the snapshot of connections the message is sent to — the symbol's recorded
subscriber list, or every active connection when the symbol has no entry. -/
def broadcastTargets (st : SysState) (s : String) : List ℕ :=
  match lookupSubs st.subs s with
  | some conns => conns
  | none => st.active

/-- The connections holding a live hub subscription to a symbol. -/
def liveSubscribers (st : SysState) (s : String) : List ℕ :=
  (lookupSubs st.subs s).getD []

/-- Validity of one operation against the current state: messages and
disconnects come only from live connections, and a connecting id is fresh. -/
def opValid (st : SysState) : Op → Bool
  | .connect c => decide (c ∉ st.active)
  | .subscribe c _ => decide (c ∈ st.active)
  | .unsubscribe c _ => decide (c ∈ st.active)
  | .disconnect c => decide (c ∈ st.active)

/-- Well-formedness of an operation sequence from a given state. -/
def wfOps (st : SysState) : List Op → Bool
  | [] => true
  | op :: rest => opValid st op && wfOps (applyOp st op) rest

/-- One step of the claim-side characterization of the polled set: a
subscribe for the symbol turns polling on, an unsubscribe turns it off, and
every other operation leaves it alone. -/
def hotStepFn (s : String) (b : Bool) : Op → Bool
  | .subscribe _ t => if t = s then true else b
  | .unsubscribe _ t => if t = s then false else b
  | _ => b

/-- The claim-side characterization of the polled set: a symbol is polled iff
some `subscribe` for it is not followed by a later `unsubscribe` for it,
regardless of which connection sent either message and regardless of
disconnects. -/
def lastSubbed (ops : List Op) (s : String) : Bool :=
  ops.foldl (hotStepFn s) false

/-- The hub part of a subscribe message does not touch the polled set. -/
theorem subscribe_to_symbol_hot (st : SysState) (c : ℕ) (s : String) :
    (subscribe_to_symbol st c s).hot = st.hot := by
  unfold subscribe_to_symbol
  cases h : lookupSubs st.subs s with
  | none => rfl
  | some l =>
    dsimp only []
    split <;> rfl

/-- Membership after a Python `set.add`. -/
theorem mem_hotAdd (hot : List String) (s t : String) :
    s ∈ hotAdd hot t ↔ (s ∈ hot ∨ s = t) := by
  unfold hotAdd
  split
  · constructor
    · exact Or.inl
    · intro h
      rcases h with h | h
      · exact h
      · subst h ; assumption
  · simp

/-- Membership after a Python `set.discard`. -/
theorem mem_hotDiscard (hot : List String) (s t : String) :
    s ∈ hotDiscard hot t ↔ (s ∈ hot ∧ s ≠ t) := by
  unfold hotDiscard
  simp [List.mem_filter]

/-- Each operation changes polled-set membership exactly as `hotStepFn`
says. -/
theorem hot_step (st : SysState) (op : Op) (s : String) :
    decide (s ∈ (applyOp st op).hot) = hotStepFn s (decide (s ∈ st.hot)) op := by
  rcases op with c | ⟨c, t⟩ | ⟨c, t⟩ | c
  · rfl
  · show decide (s ∈ hotAdd (subscribe_to_symbol st c t).hot t) = _
    rw [subscribe_to_symbol_hot]
    unfold hotStepFn
    by_cases hts : t = s
    · subst hts
      simp [mem_hotAdd]
    · simp only [mem_hotAdd]
      have : ¬s = t := fun h => hts h.symm
      simp [this, hts]
  · show decide (s ∈ hotDiscard st.hot t) = _
    unfold hotStepFn
    by_cases hts : t = s
    · subst hts
      simp [mem_hotDiscard]
    · have : ¬s = t := fun h => hts h.symm
      simp [mem_hotDiscard, hts, this]
  · rfl

/-- C5 counterexample: after `connect 0, subscribe 0 "X", disconnect 0` the
poller's hot set still contains `"X"` although no live connection subscribes
to it (its hub subscriber list is empty) and no strategy references it — the
polled set is not the set of symbols with at least one live subscription. -/
theorem hot_symbols_after_disconnect_cex :
    "X" ∈ (runOps initState [Op.connect 0, Op.subscribe 0 "X", Op.disconnect 0]).hot ∧
    liveSubscribers (runOps initState
      [Op.connect 0, Op.subscribe 0 "X", Op.disconnect 0]) "X" = [] ∧
    (runOps initState [Op.connect 0, Op.subscribe 0 "X", Op.disconnect 0]).active = [] := by
  refine ⟨?_, rfl, rfl⟩
  simp [runOps, applyOp, subscribe_to_symbol, lookupSubs, hotAdd, initState]

/-- C5 amended: for every operation sequence from startup, the polled hot set
contains exactly the symbols whose last subscribe/unsubscribe message was a
subscribe — subscribes from any connection turn polling on, unsubscribes from
any connection turn it off, disconnects never shrink the set, and symbols
required by active strategies are not part of it (the strategy loop fetches
its symbols separately). -/
theorem hot_symbols_characterization :
    ∀ (ops : List Op) (s : String),
      (s ∈ (runOps initState ops).hot) ↔ lastSubbed ops s = true := by
  have step : ∀ (ops : List Op) (st : SysState) (s : String),
      (s ∈ (runOps st ops).hot) ↔
        ops.foldl (hotStepFn s) (decide (s ∈ st.hot)) = true := by
    intro ops
    induction ops with
    | nil => intro st s ; simp [runOps]
    | cons op rest ih =>
      intro st s
      rw [runOps, List.foldl_cons, ih (applyOp st op) s, hot_step]
  intro ops s
  have := step ops initState s
  simpa [initState, lastSubbed] using this

/-- Witness for `hot_symbols_characterization` on a concrete run. -/
theorem hot_symbols_characterization_witness :
    ("X" ∈ (runOps initState [Op.connect 0, Op.subscribe 0 "X"]).hot) ↔
      lastSubbed [Op.connect 0, Op.subscribe 0 "X"] "X" = true :=
  hot_symbols_characterization [Op.connect 0, Op.subscribe 0 "X"] "X"

/-- C6 counterexample: connection 0 subscribes to `"X"` and then unsubscribes
(strictly before the broadcast), yet a broadcast to `"X"` is still delivered
to it — the `unsubscribe` message only shrinks the polled set and never
removes the hub subscription. -/
theorem broadcast_after_unsubscribe_cex :
    broadcastTargets (runOps initState
      [Op.connect 0, Op.subscribe 0 "X", Op.unsubscribe 0 "X"]) "X" = [0] ∧
    "X" ∉ (runOps initState
      [Op.connect 0, Op.subscribe 0 "X", Op.unsubscribe 0 "X"]).hot := by
  constructor
  · rfl
  · simp [runOps, applyOp, subscribe_to_symbol, lookupSubs, hotAdd, hotDiscard, initState]

/-- Structural invariant of the hub: the active list has no duplicates, and
every recorded subscriber list is duplicate-free and contains only live
connections. -/
def SubsInv (st : SysState) : Prop :=
  st.active.Nodup ∧ ∀ p ∈ st.subs, p.2.Nodup ∧ ∀ c ∈ p.2, c ∈ st.active

instance (st : SysState) : Decidable (SubsInv st) := by
  unfold SubsInv ; infer_instance

/-- A successful subscription lookup comes from an entry of the list. -/
theorem lookupSubs_mem {subs : List (String × List ℕ)} {s : String} {l : List ℕ}
    (h : lookupSubs subs s = some l) : ∃ pf ∈ subs, pf.2 = l := by
  unfold lookupSubs at h
  cases hf : subs.find? fun p => decide (p.1 = s) with
  | none => rw [hf] at h ; exact absurd h (by simp)
  | some pf =>
    rw [hf] at h
    exact ⟨pf, List.mem_of_find?_eq_some hf, by simpa using h⟩

/-- A valid operation preserves the hub invariant. -/
theorem applyOp_inv (st : SysState) (op : Op) (hinv : SubsInv st)
    (hval : opValid st op = true) : SubsInv (applyOp st op) := by
  obtain ⟨hnd, hsubs⟩ := hinv
  rcases op with c | ⟨c, s⟩ | ⟨c, s⟩ | c
  · simp only [opValid, decide_eq_true_eq] at hval
    refine ⟨?_, ?_⟩
    · simp [applyOp, List.nodup_append, hnd, hval]
    · intro p hp
      obtain ⟨h1, h2⟩ := hsubs p hp
      exact ⟨h1, fun x hx => List.mem_append_left _ (h2 x hx)⟩
  · simp only [opValid, decide_eq_true_eq] at hval
    show SubsInv { subscribe_to_symbol st c s with
      hot := hotAdd (subscribe_to_symbol st c s).hot s }
    have base : SubsInv (subscribe_to_symbol st c s) := by
      unfold subscribe_to_symbol
      cases hl : lookupSubs st.subs s with
      | none =>
        refine ⟨hnd, fun p hp => ?_⟩
        rcases List.mem_append.mp hp with h | h
        · exact hsubs p h
        · have : p = (s, [c]) := by simpa using h
          subst this
          refine ⟨List.nodup_singleton c, fun x hx => ?_⟩
          have hxc : x = c := by simpa using hx
          exact hxc ▸ hval
      | some l =>
        dsimp only []
        split
        · exact ⟨hnd, hsubs⟩
        · rename_i hcl
          obtain ⟨pf, hpf, hpfl⟩ := lookupSubs_mem hl
          obtain ⟨hlnd, hlmem⟩ := hsubs pf hpf
          rw [hpfl] at hlnd hlmem
          refine ⟨hnd, fun p hp => ?_⟩
          unfold updateSubs at hp
          obtain ⟨q, hq, hfq⟩ := List.mem_map.mp hp
          by_cases hq1 : q.1 = s
          · rw [if_pos hq1] at hfq
            subst hfq
            refine ⟨?_, ?_⟩
            · simp [List.nodup_append, hlnd, hcl]
            · intro x hx
              rcases List.mem_append.mp hx with h | h
              · exact hlmem x h
              · have hxc : x = c := by simpa using h
                exact hxc ▸ hval
          · rw [if_neg hq1] at hfq
            subst hfq
            exact hsubs q hq
    exact base
  · exact ⟨hnd, hsubs⟩
  · refine ⟨hnd.erase c, fun p hp => ?_⟩
    simp only [applyOp] at hp
    obtain ⟨q, hq, hfq⟩ := List.mem_map.mp hp
    obtain ⟨hqnd, hqmem⟩ := hsubs q hq
    subst hfq
    refine ⟨hqnd.erase c, fun x hx => ?_⟩
    obtain ⟨hxc, hxq⟩ := (List.Nodup.mem_erase_iff hqnd).mp hx
    exact (List.Nodup.mem_erase_iff hnd).mpr ⟨hxc, hqmem x hxq⟩

/-- A well-formed run from an invariant-respecting state keeps the
invariant. -/
theorem runOps_inv (ops : List Op) (st : SysState) (hinv : SubsInv st)
    (hwf : wfOps st ops = true) : SubsInv (runOps st ops) := by
  induction ops generalizing st with
  | nil => exact hinv
  | cons op rest ih =>
    simp only [wfOps, Bool.and_eq_true] at hwf
    exact ih (applyOp st op) (applyOp_inv st op hinv hwf.1) hwf.2

/-- The empty startup state satisfies the invariant. -/
theorem initState_inv : SubsInv initState := by
  refine ⟨List.nodup_nil, fun p hp => ?_⟩
  simp [initState] at hp

/-- C6 amended: for every well-formed operation sequence from startup, a
broadcast to a symbol is delivered exactly to the hub's snapshot for that
symbol at call time — its recorded subscriber list, or every active connection
when the symbol was never subscribed — each target being a live connection
(disconnected connections never receive) and each receiving at most once; but
an `unsubscribe` message changes no broadcast target, so a connection that
unsubscribed strictly before the call still receives the message. -/
theorem broadcast_targets_live :
    ∀ (ops : List Op) (s : String),
      wfOps initState ops = true →
        (∀ c, c ∈ broadcastTargets (runOps initState ops) s →
          c ∈ (runOps initState ops).active) ∧
        (broadcastTargets (runOps initState ops) s).Nodup ∧
        (∀ (c2 : ℕ) (t : String),
          broadcastTargets (applyOp (runOps initState ops) (Op.unsubscribe c2 t)) s =
            broadcastTargets (runOps initState ops) s) := by
  intro ops s hwf
  have hinv := runOps_inv ops initState initState_inv hwf
  obtain ⟨hnd, hsubs⟩ := hinv
  have key : (∀ c, c ∈ broadcastTargets (runOps initState ops) s →
      c ∈ (runOps initState ops).active) ∧
      (broadcastTargets (runOps initState ops) s).Nodup := by
    unfold broadcastTargets
    cases hl : lookupSubs (runOps initState ops).subs s with
    | none => exact ⟨fun c hc => hc, hnd⟩
    | some l =>
      obtain ⟨pf, hpf, hpfl⟩ := lookupSubs_mem hl
      obtain ⟨hlnd, hlmem⟩ := hsubs pf hpf
      rw [hpfl] at hlnd hlmem
      exact ⟨hlmem, hlnd⟩
  exact ⟨key.1, key.2, fun c2 t => rfl⟩

/-- Witness for `broadcast_targets_live` on a concrete well-formed run. -/
theorem broadcast_targets_live_witness :
    (∀ c, c ∈ broadcastTargets (runOps initState
        [Op.connect 0, Op.connect 1, Op.subscribe 0 "X", Op.subscribe 1 "X"]) "X" →
      c ∈ (runOps initState
        [Op.connect 0, Op.connect 1, Op.subscribe 0 "X", Op.subscribe 1 "X"]).active) ∧
    (broadcastTargets (runOps initState
        [Op.connect 0, Op.connect 1, Op.subscribe 0 "X", Op.subscribe 1 "X"]) "X").Nodup ∧
    (∀ (c2 : ℕ) (t : String),
      broadcastTargets (applyOp (runOps initState
          [Op.connect 0, Op.connect 1, Op.subscribe 0 "X", Op.subscribe 1 "X"])
        (Op.unsubscribe c2 t)) "X" =
        broadcastTargets (runOps initState
          [Op.connect 0, Op.connect 1, Op.subscribe 0 "X", Op.subscribe 1 "X"]) "X") :=
  broadcast_targets_live
    [Op.connect 0, Op.connect 1, Op.subscribe 0 "X", Op.subscribe 1 "X"] "X" (by decide)

/-- The shape of one raw text frame received on a client WebSocket, after the
server's `json.loads` attempt: text that is not JSON at all, text that parses
to a non-object JSON value (a list, a string, a number, `null`, ...), or a
JSON object with optional `type` and `symbol` entries. -/
inductive Payload where
  | invalidJson : Payload
  | nonObjectJson : Payload
  | objectMsg : Option String → Option String → Payload
  deriving DecidableEq, Repr

/-- Result of processing one frame: the new shared state, the replies sent
(connection id, text), and whether the connection's handler terminated (its
exception escaped the receive loop, ending the connection). -/
structure HandleOut where
  state : SysState
  sent : List (ℕ × String)
  closed : Bool
  deriving DecidableEq, Repr

/-- One iteration of the `websocket_endpoint` receive loop (`main.py`
628-646): only `json.JSONDecodeError` is caught and answered with
`Invalid JSON format`; a frame that parses to a non-object raises an uncaught
`AttributeError` on `message.get`, which escapes the loop and ends the
handler; `subscribe`/`unsubscribe` objects with a truthy symbol update the
shared state; anything else is silently ignored. -/
def handle_message (st : SysState) (c : ℕ) (p : Payload) : HandleOut :=
  match p with
  | .invalidJson => { state := st, sent := [(c, "Invalid JSON format")], closed := false }
  | .nonObjectJson => { state := st, sent := [], closed := true }
  | .objectMsg typ sym =>
    if typ = some "subscribe" then
      match sym with
      | some s =>
        if s.isEmpty then { state := st, sent := [], closed := false }
        else { state := applyOp st (.subscribe c s), sent := [], closed := false }
      | none => { state := st, sent := [], closed := false }
    else if typ = some "unsubscribe" then
      match sym with
      | some s =>
        if s.isEmpty then { state := st, sent := [], closed := false }
        else { state := applyOp st (.unsubscribe c s), sent := [], closed := false }
      | none => { state := st, sent := [], closed := false }
    else { state := st, sent := [], closed := false }

/-- C9 counterexample: a payload that is valid JSON but not an object — e.g.
the frame `[1, 2, 3]` — is a malformed payload for the protocol, yet the server
sends no error text and the connection's handler dies (the `AttributeError`
from `message.get` is not caught), closing the connection. -/
theorem nonobject_payload_closes_cex :
    handle_message initState 0 Payload.nonObjectJson =
      { state := initState, sent := [], closed := true } := rfl

/-- C9 amended: a payload that fails JSON parsing is answered in-band with
`Invalid JSON format` and leaves the shared state untouched and the connection
open; but a payload that parses to a non-object JSON value terminates that
connection's handler with no reply.  In both cases nothing is sent to any
other connection and no other connection's subscriptions change. -/
theorem malformed_payload_handling :
    ∀ (st : SysState) (c : ℕ),
      handle_message st c Payload.invalidJson =
        { state := st, sent := [(c, "Invalid JSON format")], closed := false } ∧
      handle_message st c Payload.nonObjectJson =
        { state := st, sent := [], closed := true } ∧
      (∀ (p : Payload) (m : ℕ × String), m ∈ (handle_message st c p).sent → m.1 = c) := by
  intro st c
  refine ⟨rfl, rfl, ?_⟩
  intro p m hm
  rcases p with _ | _ | ⟨typ, sym⟩
  · simp only [handle_message, List.mem_singleton] at hm
    rw [hm]
  · simp [handle_message] at hm
  · rcases sym with _ | s
    · by_cases h1 : typ = some "subscribe" <;> by_cases h2 : typ = some "unsubscribe" <;>
        simp [handle_message, h1, h2] at hm
    · by_cases h1 : typ = some "subscribe" <;> by_cases h2 : typ = some "unsubscribe" <;>
        by_cases h3 : s.isEmpty <;> simp [handle_message, h1, h2, h3] at hm

/-- Witness for `malformed_payload_handling` at a concrete state and
connection. -/
theorem malformed_payload_handling_witness :
    handle_message initState 7 Payload.invalidJson =
      { state := initState, sent := [(7, "Invalid JSON format")], closed := false } ∧
    handle_message initState 7 Payload.nonObjectJson =
      { state := initState, sent := [], closed := true } ∧
    (∀ (p : Payload) (m : ℕ × String), m ∈ (handle_message initState 7 p).sent → m.1 = 7) :=
  malformed_payload_handling initState 7

/-- A quote dictionary as produced by the provider and the mock fallback
(`main.py` 269, 336-349): last price, change, change percent, volume, open
interest. -/
structure Quote where
  lp : ℚ
  ch : ℚ
  chp : ℚ
  v : ℕ
  oi : ℕ
  deriving DecidableEq, Repr

/-- Outcome of one `fyers.quotes` call for a single symbol: a quote with an
`ok` status, a non-`ok` response, or a raised exception. -/
inductive FetchResp where
  | ok : Quote → FetchResp
  | notOk : FetchResp
  | exn : String → FetchResp
  deriving DecidableEq, Repr

/-- Result of one `FyersAPI.get_market_data` call: the returned data mapping,
the fresh quotes written to the cache during the call, and whether the
`except` branch replaced the result with mock data. -/
structure MarketDataOut where
  data : List (String × Quote)
  cachedPuts : List (String × Quote)
  usedMockFallback : Bool
  deriving DecidableEq, Repr

/-- The symbol loop of `FyersAPI.get_market_data` (`main.py` 261-275): for
each symbol, serve the cached quote if present, otherwise call the provider —
an `ok` response is recorded and written to the cache, a non-`ok` response
silently skips the symbol, and a raised exception aborts the whole loop: the
enclosing `except` returns `_get_mock_market_data` for every requested symbol
(the fresh quotes already returned for earlier symbols are discarded, though
their cache writes persist). -/
def getMarketDataLoop (allSymbols : List String) (cache : String → Option Quote)
    (provider : String → FetchResp) (mock : String → Quote) :
    List String → List (String × Quote) → List (String × Quote) → MarketDataOut
  | [], acc, puts => { data := acc, cachedPuts := puts, usedMockFallback := false }
  | s :: rest, acc, puts =>
    match cache s with
    | some q => getMarketDataLoop allSymbols cache provider mock rest (acc ++ [(s, q)]) puts
    | none =>
      match provider s with
      | .ok q =>
        getMarketDataLoop allSymbols cache provider mock rest (acc ++ [(s, q)]) (puts ++ [(s, q)])
      | .notOk => getMarketDataLoop allSymbols cache provider mock rest acc puts
      | .exn _ =>
        { data := allSymbols.map fun t => (t, mock t), cachedPuts := puts,
          usedMockFallback := true }

/-- `FyersAPI.get_market_data` (`main.py` 255-275). -/
def get_market_data (symbols : List String) (cache : String → Option Quote)
    (provider : String → FetchResp) (mock : String → Quote) : MarketDataOut :=
  getMarketDataLoop symbols cache provider mock symbols [] []

/-- The per-symbol result on the no-exception path: cache hit, else the
provider's quote on `ok`, else nothing. -/
def fetchOne (cache : String → Option Quote) (provider : String → FetchResp)
    (s : String) : Option Quote :=
  match cache s with
  | some q => some q
  | none =>
    match provider s with
    | .ok q => some q
    | _ => none

/-- The per-symbol cache write on the no-exception path: only a cache miss
answered `ok` is written. -/
def putOne (cache : String → Option Quote) (provider : String → FetchResp)
    (s : String) : Option Quote :=
  match cache s with
  | some _ => none
  | none =>
    match provider s with
    | .ok q => some q
    | _ => none

/-- A concrete quote used by the C7 counterexample. -/
def qB : Quote := { lp := 100, ch := 1, chp := 1, v := 10, oi := 10 }

/-- A concrete mock-data generator used by the C7 counterexample. -/
def mockQ : String → Quote := fun _ => { lp := 5, ch := 0, chp := 0, v := 1, oi := 1 }

/-- A provider that raises for symbol `A` and succeeds for every other
symbol. -/
def provC7 : String → FetchResp := fun s => if s = "A" then .exn "boom" else .ok qB

/-- C7 counterexample: polling `[A, B]` with an empty cache, where the
provider raises for `A` and would return `qB` for `B`: the whole call falls
back to mock data for both symbols — `B`'s quote is never fetched, nothing is
cached, and the broadcast for `B` would carry the mock quote, not `qB` — so a
single symbol's failure does not merely skip that symbol. -/
theorem market_data_exn_fallback_cex :
    get_market_data ["A", "B"] (fun _ => none) provC7 mockQ =
      { data := [("A", mockQ "A"), ("B", mockQ "B")], cachedPuts := [],
        usedMockFallback := true } ∧
    mockQ "B" ≠ qB := by
  exact ⟨rfl, by decide⟩

/-- C7 amended: when no requested symbol's fetch raises, each symbol is
handled independently — a cache hit or `ok` quote is returned, a non-`ok`
response skips exactly that symbol, and the cache receives exactly the fresh
`ok` quotes; but when any requested symbol's fetch raises, the whole call is
aborted and every requested symbol gets mock data instead. -/
theorem market_data_partial_failure :
    ∀ (symbols : List String) (cache : String → Option Quote)
      (provider : String → FetchResp) (mock : String → Quote),
      ((∀ s ∈ symbols, cache s = none → ∀ e, provider s ≠ .exn e) →
        get_market_data symbols cache provider mock =
          { data := symbols.filterMap fun s => (fetchOne cache provider s).map fun q => (s, q),
            cachedPuts :=
              symbols.filterMap fun s => (putOne cache provider s).map fun q => (s, q),
            usedMockFallback := false }) ∧
      ((∃ s ∈ symbols, cache s = none ∧ ∃ e, provider s = .exn e) →
        (get_market_data symbols cache provider mock).data =
          (symbols.map fun t => (t, mock t)) ∧
        (get_market_data symbols cache provider mock).usedMockFallback = true) := by
  intro symbols cache provider mock
  constructor
  · intro hnoexn
    have loopOk : ∀ (l : List String) (acc puts : List (String × Quote)),
        (∀ s ∈ l, cache s = none → ∀ e, provider s ≠ .exn e) →
        getMarketDataLoop symbols cache provider mock l acc puts =
          { data := acc ++ l.filterMap fun s => (fetchOne cache provider s).map fun q => (s, q),
            cachedPuts :=
              puts ++ (l.filterMap fun s => (putOne cache provider s).map fun q => (s, q)),
            usedMockFallback := false } := by
      intro l
      induction l with
      | nil => intro acc puts _ ; simp [getMarketDataLoop]
      | cons s rest ih =>
        intro acc puts hok
        have hrest : ∀ t ∈ rest, cache t = none → ∀ e, provider t ≠ .exn e :=
          fun t ht => hok t (List.mem_cons_of_mem s ht)
        unfold getMarketDataLoop
        cases hc : cache s with
        | some q =>
          have hf : fetchOne cache provider s = some q := by simp [fetchOne, hc]
          have hpu : putOne cache provider s = none := by simp [putOne, hc]
          dsimp only []
          rw [ih (acc ++ [(s, q)]) puts hrest]
          simp [List.filterMap_cons, hf, hpu, List.append_assoc]
        | none =>
          cases hp : provider s with
          | ok q =>
            have hf : fetchOne cache provider s = some q := by simp [fetchOne, hc, hp]
            have hpu : putOne cache provider s = some q := by simp [putOne, hc, hp]
            dsimp only []
            rw [ih (acc ++ [(s, q)]) (puts ++ [(s, q)]) hrest]
            simp [List.filterMap_cons, hf, hpu, List.append_assoc]
          | notOk =>
            have hf : fetchOne cache provider s = none := by simp [fetchOne, hc, hp]
            have hpu : putOne cache provider s = none := by simp [putOne, hc, hp]
            dsimp only []
            rw [ih acc puts hrest]
            simp [List.filterMap_cons, hf, hpu]
          | exn e => exact absurd hp (hok s (List.mem_cons_self s rest) hc e)
    exact loopOk symbols [] [] hnoexn
  · intro hexn
    have loopExn : ∀ (l : List String) (acc puts : List (String × Quote)),
        (∃ s ∈ l, cache s = none ∧ ∃ e, provider s = .exn e) →
        (getMarketDataLoop symbols cache provider mock l acc puts).data =
          (symbols.map fun t => (t, mock t)) ∧
        (getMarketDataLoop symbols cache provider mock l acc puts).usedMockFallback = true := by
      intro l
      induction l with
      | nil => intro acc puts h ; simp at h
      | cons s rest ih =>
        intro acc puts h
        unfold getMarketDataLoop
        cases hc : cache s with
        | some q =>
          dsimp only []
          apply ih
          rcases h with ⟨t, ht, hcn, he⟩
          rcases List.mem_cons.mp ht with rfl | htr
          · rw [hc] at hcn ; exact absurd hcn (by simp)
          · exact ⟨t, htr, hcn, he⟩
        | none =>
          cases hp : provider s with
          | ok q =>
            dsimp only []
            apply ih
            rcases h with ⟨t, ht, hcn, e, he⟩
            rcases List.mem_cons.mp ht with rfl | htr
            · rw [hp] at he ; exact absurd he (by simp)
            · exact ⟨t, htr, hcn, e, he⟩
          | notOk =>
            dsimp only []
            apply ih
            rcases h with ⟨t, ht, hcn, e, he⟩
            rcases List.mem_cons.mp ht with rfl | htr
            · rw [hp] at he ; exact absurd he (by simp)
            · exact ⟨t, htr, hcn, e, he⟩
          | exn e => exact ⟨rfl, rfl⟩
    exact loopExn symbols [] [] hexn

/-- Witness for `market_data_partial_failure`: a run with no exception where
one symbol's provider response is non-`ok`, and a run where one symbol
raises. -/
theorem market_data_partial_failure_witness :
    ((∀ s ∈ ["B", "C"], (fun (_ : String) => (none : Option Quote)) s = none →
        ∀ e, (fun t => if t = "C" then FetchResp.notOk else FetchResp.ok qB) s ≠ .exn e) →
      get_market_data ["B", "C"] (fun _ => none)
          (fun t => if t = "C" then FetchResp.notOk else FetchResp.ok qB) mockQ =
        { data := ["B", "C"].filterMap fun s =>
            (fetchOne (fun _ => none)
              (fun t => if t = "C" then FetchResp.notOk else FetchResp.ok qB) s).map
                fun q => (s, q),
          cachedPuts := ["B", "C"].filterMap fun s =>
            (putOne (fun _ => none)
              (fun t => if t = "C" then FetchResp.notOk else FetchResp.ok qB) s).map
                fun q => (s, q),
          usedMockFallback := false }) ∧
    ((∃ s ∈ ["A", "B"], (fun (_ : String) => (none : Option Quote)) s = none ∧
        ∃ e, provC7 s = .exn e) →
      (get_market_data ["A", "B"] (fun _ => none) provC7 mockQ).data =
        (["A", "B"].map fun t => (t, mockQ t)) ∧
      (get_market_data ["A", "B"] (fun _ => none) provC7 mockQ).usedMockFallback = true) := by
  exact ⟨fun h => (market_data_partial_failure ["B", "C"] (fun _ => none)
      (fun t => if t = "C" then FetchResp.notOk else FetchResp.ok qB) mockQ).1 h,
    fun h => (market_data_partial_failure ["A", "B"] (fun _ => none) provC7 mockQ).2 h⟩

/-- One entry of the Redis market-data cache: key, value, absolute expiry
time (in seconds). -/
def RedisStore : Type := List (String × Quote × ℚ)

/-- Redis `SETEX key ttl value` as used at `main.py` 270 (`redis_client.setex`
with a TTL of `CACHE_MARKET_DATA_TTL = 1` second): stores the value with
expiry `now + ttl`, overwriting any prior entry for the key. -/
def redisSetex (store : RedisStore) (now : ℚ) (key : String) (ttl : ℚ)
    (q : Quote) : RedisStore :=
  (key, q, now + ttl) :: store.filter fun e => decide (e.1 ≠ key)

/-- Redis `GET` as used at `main.py` 263: returns the stored value while the
key has not yet expired (strictly before its expiry time), and nothing — so
the caller performs a fresh upstream fetch — once the TTL has elapsed. -/
def redisGet (store : RedisStore) (now : ℚ) (key : String) : Option Quote :=
  match store.find? fun e => decide (e.1 = key) with
  | some e => if now < e.2.2 then some e.2.1 else none
  | none => none

/-- C8: a cache read at time `t2` after a write at time `t1` returns the very
quote written while less than the TTL has elapsed, and returns nothing once
the TTL has elapsed — the stale quote is never served at or past expiry, so
the caller falls through to a fresh upstream fetch. -/
theorem redis_cache_ttl :
    ∀ (store : RedisStore) (t1 t2 ttl : ℚ) (key : String) (q : Quote),
      (t2 - t1 < ttl → redisGet (redisSetex store t1 key ttl q) t2 key = some q) ∧
      (ttl ≤ t2 - t1 → redisGet (redisSetex store t1 key ttl q) t2 key = none) := by
  intro store t1 t2 ttl key q
  have hfind : (redisSetex store t1 key ttl q).find? (fun e => decide (e.1 = key)) =
      some (key, q, t1 + ttl) := by
    unfold redisSetex
    simp [List.find?_cons]
  constructor
  · intro h
    unfold redisGet
    rw [hfind]
    have : t2 < t1 + ttl := by linarith
    simp [this]
  · intro h
    unfold redisGet
    rw [hfind]
    have : ¬t2 < t1 + ttl := by simp ; linarith
    simp [this]

/-- Witness for `redis_cache_ttl` with the code's 1-second TTL: a read half a
second after the write hits, a read one second after misses. -/
theorem redis_cache_ttl_witness :
    redisGet (redisSetex [] 0 "NSE:NIFTY" 1 qB) (1 / 2) "NSE:NIFTY" = some qB ∧
    redisGet (redisSetex [] 0 "NSE:NIFTY" 1 qB) 1 "NSE:NIFTY" = none := by
  exact ⟨(redis_cache_ttl [] 0 (1 / 2) 1 "NSE:NIFTY" qB).1 (by norm_num),
    (redis_cache_ttl [] 0 1 1 "NSE:NIFTY" qB).2 (by norm_num)⟩

end PythonBackend
